import Mathlib

set_option linter.unusedVariables false

/-!
Verification of the windows-98-icons build pipeline.

Each section embeds one script of the repository as executable Lean
definitions and proves the specified properties about them:

* `CombineRuns`   — scripts/combine_runs.py (merge, dedup, validation, sort)
* `BuildDb`       — scripts/build_db.py (database assembly, insert loop)
* `ProcessIcons`  — scripts/process_icons.py (batch orchestration, checkpoints)
* `EmbedServer`   — scripts/embed_single_process.py and scripts/embed_db_missing.py
                    (request/response correlation with the embedding subprocess)
* `EmbedDbMissing`— scripts/embed_db_missing.py (backfill of missing embeddings)
-/

namespace CombineRuns

/-- A scalar Python/JSON value.  Numeric values (ints and floats) are
modelled as opaque `Int` scalars: no claim computes with the magnitude of
an embedding component. -/
inductive PyScalar where
  | num (q : Int)
  | str (s : String)
  | bool (b : Bool)
  | null
deriving DecidableEq

/-- A Python/JSON value as it can appear in an icon dictionary field:
either a scalar or a list.  List elements are modelled as scalars;
combine_runs.py never inspects the elements of an `embedding` list (only
`isinstance(..., list)` and `len(...)`), so deeper nesting is irrelevant
to every property proved here. -/
inductive PyVal where
  | atom (v : PyScalar)
  | list (l : List PyScalar)
deriving DecidableEq

/-- Python truthiness of a scalar (`bool(v)`). -/
def PyScalar.truthy : PyScalar → Bool
  | .num q => q != 0
  | .str s => s != ""
  | .bool b => b
  | .null => false

/-- Python truthiness of a value (`bool(v)`). -/
def PyVal.truthy : PyVal → Bool
  | .atom v => v.truthy
  | .list l => !l.isEmpty

/-- `isinstance(v, list)`. -/
def PyVal.isList : PyVal → Bool
  | .atom _ => false
  | .list _ => true

/-- `len(v)` for list values (only ever applied to lists in the script). -/
def PyVal.listLen : PyVal → Nat
  | .atom _ => 0
  | .list l => l.length

/-- One icon dictionary as handled by combine_runs.py.  `Option` models a
missing key (or a JSON `null`, which the script treats identically through
truthiness).  `name`, `description` and `local_path` are strings in every
producer of these files; `embedding` can be arbitrary JSON, which is what
`validate_icon_data` inspects. -/
structure Icon where
  name : Option String
  description : Option String
  embedding : Option PyVal
  local_path : Option String
deriving DecidableEq

/-- `icon.get('name', '')`. -/
def getName (icon : Icon) : String := icon.name.getD ""

/-- Truthiness of an optional string field: missing keys are falsy,
empty strings are falsy. -/
def truthyS : Option String → Bool
  | some s => s != ""
  | none => false

/-- Truthiness of an optional JSON field. -/
def truthyV : Option PyVal → Bool
  | some v => v.truthy
  | none => false

/-- combine_runs.py `deduplicate_icons`, lines 35-54.  Walks the list with a
`seen_names` set; keeps an icon iff its name is truthy and unseen; every
skipped icon (duplicate name or no name) increments `duplicates_count`.
Returns (deduplicated list, duplicates_count). -/
def dedupGo (seen : List String) : List Icon → List Icon × Nat
  | [] => ([], 0)
  | icon :: rest =>
    let name := getName icon
    if name ≠ "" ∧ name ∉ seen then
      let r := dedupGo (name :: seen) rest
      (icon :: r.1, r.2)
    else
      let r := dedupGo seen rest
      (r.1, r.2 + 1)

/-- The deduplicated list returned by `deduplicate_icons`. -/
def deduplicate_icons (l : List Icon) : List Icon := (dedupGo [] l).1

/-- The `duplicates_count` reported by `deduplicate_icons`. -/
def duplicatesCount (l : List Icon) : Nat := (dedupGo [] l).2

/-- combine_runs.py `validate_icon_data`, lines 57-76: all four required
fields must be present and truthy, and `embedding` must be a list with
`len(embedding) != 0`.  Note the element types of the list are not
inspected. -/
def validate_icon_data (icon : Icon) : Bool :=
  if !truthyS icon.name || !truthyS icon.description ||
      !truthyV icon.embedding || !truthyS icon.local_path then
    false
  else
    let embedding := icon.embedding.getD (PyVal.list [])
    if !embedding.isList || embedding.listLen == 0 then false
    else true

/-- One iteration of the validation loop of `combine_runs`, lines 115-119. -/
def validationStep (acc : List Icon × Nat) (icon : Icon) : List Icon × Nat :=
  if validate_icon_data icon then (acc.1 ++ [icon], acc.2)
  else (acc.1, acc.2 + 1)

/-- The validation loop of `combine_runs`, lines 112-119: partitions the
deduplicated list into (valid_icons in order, invalid_count). -/
def validationPass (icons : List Icon) : List Icon × Nat :=
  icons.foldl validationStep ([], 0)

/-- `all_icons`: the per-file lists concatenated in input-file order
(the `all_icons.extend(icons)` loop, lines 91-94). -/
def allIcons (inputs : List (List Icon)) : List Icon :=
  inputs.foldl (fun acc icons => acc ++ icons) []

/-- The final record list written by `combine_runs` (lines 108-135):
dedup, then validation filter, then in-place sort by `name`. -/
def combinedOutput (inputs : List (List Icon)) : List Icon :=
  ((validationPass (deduplicate_icons (allIcons inputs))).1).mergeSort
    (fun a b => decide (getName a ≤ getName b))

/-- The `invalid_count` reported by `combine_runs`. -/
def invalidCount (inputs : List (List Icon)) : Nat :=
  (validationPass (deduplicate_icons (allIcons inputs))).2

/-- The spec's validity requirement on `embedding` transcribed from its own
words ("whose `embedding` is not a non-empty numeric sequence"): a non-empty
list all of whose elements are numbers.  Stated only for comparison with the
code's `validate_icon_data`, which checks `isinstance(..., list)` and
non-emptiness but never the element types. -/
def specNumericEmbedding (icon : Icon) : Bool :=
  match icon.embedding with
  | some (PyVal.list l) =>
    !l.isEmpty && l.all fun e => match e with | .num _ => true | _ => false
  | _ => false

def iconXfirst : Icon :=
  ⟨some "x", some "first description", some (.atom (.num 1)), some "a.png"⟩

def iconXsecond : Icon :=
  ⟨some "x", some "second description", some (.atom (.num 2)), some "b.png"⟩

def iconNoName : Icon := ⟨none, some "d", some (.atom (.num 1)), some "p"⟩

def iconAname : Icon :=
  ⟨some "alpha", some "first", some (.list [.num 1]), some "alpha.png"⟩

def iconBname : Icon :=
  ⟨some "beta", some "second", some (.list [.num 2]), some "beta.png"⟩

def badEmbeddingIcon : Icon :=
  ⟨some "axe", some "a small hand axe", some (.list [.str "oops"]),
   some "axe.png"⟩

end CombineRuns

namespace BuildDb

/-- One processed icon as consumed by build_db.py `insert_icons`.  Embedding
components are opaque scalars (`Int`); only presence and length matter to the
script.  The `src`, `alt` and `parent_text` fields are the `source_data`
metadata pulled out at line 135 (defaulted to `''` by `.get`), so they are
plain strings here. -/
structure Icon where
  name : String
  filename : String
  local_path : String
  description : String
  searchable_text : String
  width : Option Int
  height : Option Int
  embedding : Option (List Int)
  src : String
  alt : String
  parent_text : String
deriving DecidableEq

/-- A row of the primary `icons` table.  The `embedding` column is TEXT
holding `json.dumps` of the list; since `json.dumps` is deterministic and
injective on lists of scalars, the column is modelled by the list itself
(`none` = SQL NULL). -/
structure IconRow where
  id : Nat
  name : String
  filename : String
  local_path : String
  description : String
  searchable_text : String
  width : Option Int
  height : Option Int
  embedding : Option (List Int)
  source_url : String
  alt_text : String
  parent_text : String
deriving DecidableEq

/-- A row of the `icon_embeddings` vec0 virtual table. -/
structure VecRow where
  icon_id : Nat
  embedding : List Int
deriving DecidableEq

/-- A row of the `icons_fts` full-text-search virtual table. -/
structure FtsRow where
  rowid : Nat
  name : String
  description : String
  searchable_text : String
deriving DecidableEq

/-- The three tables populated by `insert_icons` plus the AUTOINCREMENT
counter for `icons.id`. -/
structure DB where
  icons : List IconRow
  vecRows : List VecRow
  ftsRows : List FtsRow
  nextId : Nat
deriving DecidableEq

/-- The condition guarding both embedding uses, build_db.py lines 151 and
160-161: `icon.get('embedding') and len(icon.get('embedding', [])) ==
self.embedding_dimensions`.  Python truthiness makes an empty list fail the
first conjunct. -/
def embedValid (dims : Nat) (icon : Icon) : Bool :=
  match icon.embedding with
  | some l => !l.isEmpty && l.length == dims
  | none => false

/-- The primary-table row built at lines 138-155: the `embedding` column is
the JSON dump when `embedValid`, otherwise NULL. -/
def primaryRowFor (dims : Nat) (iconId : Nat) (icon : Icon) : IconRow :=
  { id := iconId
    name := icon.name
    filename := icon.filename
    local_path := icon.local_path
    description := icon.description
    searchable_text := icon.searchable_text
    width := icon.width
    height := icon.height
    embedding := if embedValid dims icon then icon.embedding else none
    source_url := icon.src
    alt_text := icon.alt
    parent_text := icon.parent_text }

/-- The vector-index row inserted at lines 159-167, or `none` when the
record is "skipped with a warning". -/
def vecRowFor (dims : Nat) (iconId : Nat) (icon : Icon) : Option VecRow :=
  match icon.embedding with
  | some l => if !l.isEmpty && l.length == dims then some ⟨iconId, l⟩ else none
  | none => none

/-- The FTS row inserted unconditionally at lines 169-173. -/
def ftsRowFor (iconId : Nat) (icon : Icon) : FtsRow :=
  ⟨iconId, icon.name, icon.description, icon.searchable_text⟩

/-- One iteration of the `insert_icons` loop body, lines 132-173.  The only
failure the schema can produce on this data is the UNIQUE constraint on
`icons.name` (name TEXT NOT NULL UNIQUE); a violating INSERT raises, which
the `except` arm of the loop catches.  A failed INSERT leaves the database
unchanged. -/
def insertIcon (dims : Nat) (db : DB) (icon : Icon) : Except String DB :=
  if (db.icons.map IconRow.name).contains icon.name then
    .error "UNIQUE constraint failed: icons.name"
  else
    .ok { icons := db.icons ++ [primaryRowFor dims db.nextId icon]
          vecRows := db.vecRows ++ (vecRowFor dims db.nextId icon).toList
          ftsRows := db.ftsRows ++ [ftsRowFor db.nextId icon]
          nextId := db.nextId + 1 }

/-- One full iteration of the `insert_icons` loop, lines 132-182: the
try/except around one record's inserts — a raising insert is caught and
counted in `failed_count`, a successful one in `inserted_count`.  The
accumulator is (db, inserted_count, failed_count). -/
def insertStep (dims : Nat) (acc : DB × Nat × Nat) (icon : Icon) :
    DB × Nat × Nat :=
  match insertIcon dims acc.1 icon with
  | .ok db' => (db', acc.2.1 + 1, acc.2.2)
  | .error _ => (acc.1, acc.2.1, acc.2.2 + 1)

/-- The full `insert_icons` loop, lines 129-183.  Returns (db,
inserted_count, failed_count). -/
def insert_icons (dims : Nat) (db : DB) (icons : List Icon) : DB × Nat × Nat :=
  icons.foldl (insertStep dims) (db, 0, 0)

def dbEmpty : DB := ⟨[], [], [], 1⟩

def iconShortEmb : Icon :=
  ⟨"calc", "calc.png", "icons/calc.png", "a calculator",
   "calc a calculator", none, none, some [5], "", "", ""⟩

def iconFirstA : Icon :=
  ⟨"a", "a.png", "p/a.png", "da", "sa a", none, none, some [1, 2],
   "", "", ""⟩

def iconDupA : Icon :=
  ⟨"a", "a2.png", "p/a2.png", "da2", "sa a2", none, none, none,
   "", "", ""⟩

def iconFreshB : Icon :=
  ⟨"b", "b.png", "p/b.png", "db", "sb b", none, none, some [3, 4],
   "", "", ""⟩

end BuildDb

namespace ProcessIcons

/-- The JSON document written by process_icons.py `save_processed_data`,
lines 330-339, with its fields in the dictionary's (fixed) insertion order.
`json.dump` of this insertion-ordered dict is a deterministic function of
the structure, so two writes produce byte-identical files iff the two
`SavedDoc` values are equal.  `timestamp` holds the `time.time()` clock
reading taken inside the write, modelled as an opaque tick count. -/
structure SavedDoc (α : Type) where
  processed_icons : List α
  total_count : Nat
  timestamp : Nat
  embedding_model : String
  vision_model : String
deriving DecidableEq

/-- process_icons.py `save_processed_data` (the checkpoint write): the
document serialized to `icons_processed.json` given the accumulated
`processed_data` and the wall clock `now` read by `time.time()`. -/
def save_processed_data (α : Type) (processed : List α) (now : Nat) : SavedDoc α :=
  { processed_icons := processed
    total_count := processed.length
    timestamp := now
    embedding_model := "text-embedding-3-small"
    vision_model := "gpt-4o-mini" }

/-- The checkpoint document with the `timestamp` field removed. -/
def SavedDoc.withoutTimestamp {α : Type} (d : SavedDoc α) :
    List α × Nat × String × String :=
  (d.processed_icons, d.total_count, d.embedding_model, d.vision_model)

/-- `asyncio.gather` slot semantics (process_icons.py lines 291-294): each
task writes its own outcome into its own result slot when it completes.
`writeSlots g completion slots` performs the writes in completion order:
for each index `i` in `completion`, slot `i` receives outcome `g i`. -/
def writeSlots {β : Type} (g : Nat → Option β) :
    List Nat → List (Option β) → List (Option β)
  | [], slots => slots
  | i :: rest, slots => writeSlots g rest (slots.set i (g i))

/-- The `batch_results` list seen by the loop at lines 297-305, for a batch
`items`, per-item outcome `f` (`some` = a processed icon, `none` = a failed
or exception-raising item), and an arbitrary completion order
`completion`. -/
def gatherResults {α β : Type} (f : α → Option β) (items : List α)
    (completion : List Nat) : List (Option β) :=
  writeSlots (fun i => (items.get? i).bind f) completion (items.map fun _ => none)

/-- The successful results appended to `self.processed_data` by the loop at
lines 297-305: `batch_results` is walked in slot order and non-`None`
results are appended. -/
def batchOutput {α β : Type} (f : α → Option β) (items : List α)
    (completion : List Nat) : List β :=
  (gatherResults f items completion).filterMap id

end ProcessIcons

namespace EmbedServer

/-- One JSON line enqueued by `_read_responses` (any parsed object carrying
an `id` key).  The embedding server emits `({ id, embedding })` on success
and `({ id, error: true })` on failure; `embedding` is `Option` so that
`response.get('embedding')` is total, and `isError` models `'error' in
response`.  Embedding components are opaque scalars. -/
structure Response where
  id : Nat
  embedding : Option (List Int)
  isError : Bool
deriving DecidableEq

/-- embed_single_process.py `EmbeddingServer.generate_embedding`, lines
169-179: `while True: response = self.response_queue.get(); if response['id']
== request_id: return ...`.  The queue has NO timeout, so once the listed
responses are exhausted with no match the call blocks forever; the outer
`none` means "never returns", and `some v` means the call returns `v`
(where `v = none` is Python `None`, returned when the response carries the
error flag). -/
def awaitById (k : Nat) : List Response → Option (Option (List Int))
  | [] => none
  | r :: rest =>
    if r.id = k then some (if r.isError then none else r.embedding)
    else awaitById k rest

/-- embed_db_missing.py `EmbeddingServer.generate_embedding`, lines 166-182:
the same matching loop but polling `self.response_queue.get(timeout=1)`
under a 30-second deadline; when the deadline passes without a matching
response the function returns `None`.  The argument lists the responses
arriving before the deadline, so exhausting it models the timeout and the
function always returns (`none` = Python `None`). -/
def awaitByIdTimeout (k : Nat) : List Response → Option (List Int)
  | [] => none
  | r :: rest =>
    if r.id = k then (if r.isError then none else r.embedding)
    else awaitByIdTimeout k rest

def respOther : Response := ⟨2, some [5], false⟩

def respMatch : Response := ⟨1, some [9], false⟩

def respLate : Response := ⟨3, some [7], false⟩

def respErrLate : Response := ⟨3, none, true⟩

end EmbedServer

namespace EmbedDbMissing

/-- A row of the assembled database's `icons` table as touched by
embed_db_missing.py `main`: the columns the pass reads or writes are
explicit; every remaining column is carried opaquely in `otherCols` so the
frame property can be stated about it.  The `embedding` TEXT column is
`none` for SQL NULL and `some s` for the stored JSON text. -/
structure Row where
  id : Nat
  name : String
  searchable_text : String
  embedding : Option String
  otherCols : List (String × String)
deriving DecidableEq

/-- The selection predicate of the pass, lines 203-207:
`WHERE embedding IS NULL OR embedding = ''`. -/
def missingEmbedding (r : Row) : Bool :=
  r.embedding == none || r.embedding == some ""

/-- The `SELECT id, name, searchable_text FROM icons WHERE ...` snapshot
taken before any update. -/
def selectMissing (db : List Row) : List Row :=
  db.filter missingEmbedding

/-- `UPDATE icons SET embedding = ? WHERE id = ?` (lines 237-240). -/
def updateById (db : List Row) (target : Nat) (v : String) : List Row :=
  db.map fun r => if r.id = target then { r with embedding := some v } else r

/-- One iteration of the pass's loop, lines 229-245: ask the embedding
server for the selected row (`embedFn` maps the row's `searchable_text` to
the JSON-encoded embedding, `none` = the generate call failed or timed
out); update that row's `embedding` column on success, do nothing on
failure. -/
def backfillStep (embedFn : String → Option String) (acc : List Row)
    (row : Row) : List Row :=
  match embedFn row.searchable_text with
  | some e => updateById acc row.id e
  | none => acc

/-- The whole backfill pass, lines 199-248: select the rows with NULL or
empty embeddings up front, then update them one by one. -/
def backfill (embedFn : String → Option String) (db : List Row) : List Row :=
  (selectMissing db).foldl (backfillStep embedFn) db

/-- The frame relation between a row before and after the pass: every
column other than `embedding` is unchanged, and a row that was not missing
its embedding when selection ran is entirely unchanged. -/
def framePreserved (r r' : Row) : Prop :=
  r'.id = r.id ∧ r'.name = r.name ∧
  r'.searchable_text = r.searchable_text ∧ r'.otherCols = r.otherCols ∧
  (missingEmbedding r = false → r' = r)

def rowKept : Row := ⟨1, "calc", "calc text", some "[1]",
  [("filename", "calc.png")]⟩

def rowMissing : Row := ⟨2, "disk", "disk text", none,
  [("filename", "disk.png")]⟩

def embedConst : String → Option String := fun _ => some "[9]"

end EmbedDbMissing

namespace CombineRuns

theorem dedupGo_length : ∀ (l : List Icon) (seen : List String),
    ((dedupGo seen l).1).length + (dedupGo seen l).2 = l.length := by
  intro l
  induction l with
  | nil => intro seen; rfl
  | cons icon rest ih =>
    intro seen
    by_cases h : getName icon ≠ "" ∧ getName icon ∉ seen
    · simp only [dedupGo, if_pos h, List.length_cons]
      have := ih (getName icon :: seen)
      omega
    · simp only [dedupGo, if_neg h, List.length_cons]
      have := ih seen
      omega

theorem dedupGo_mem_name : ∀ (l : List Icon) (seen : List String) (r : Icon),
    r ∈ (dedupGo seen l).1 → getName r ≠ "" ∧ getName r ∉ seen := by
  intro l
  induction l with
  | nil => intro seen r h; simp [dedupGo] at h
  | cons icon rest ih =>
    intro seen r h
    by_cases hc : getName icon ≠ "" ∧ getName icon ∉ seen
    · simp only [dedupGo, if_pos hc] at h
      rcases List.mem_cons.1 h with rfl | h
      · exact hc
      · have hr := ih (getName icon :: seen) r h
        exact ⟨hr.1, fun hmem => hr.2 (List.mem_cons_of_mem _ hmem)⟩
    · simp only [dedupGo, if_neg hc] at h
      exact ih seen r h

theorem dedupGo_sublist : ∀ (l : List Icon) (seen : List String),
    ((dedupGo seen l).1).Sublist l := by
  intro l
  induction l with
  | nil => intro seen; simp [dedupGo]
  | cons icon rest ih =>
    intro seen
    by_cases hc : getName icon ≠ "" ∧ getName icon ∉ seen
    · simp only [dedupGo, if_pos hc]
      exact (ih (getName icon :: seen)).cons₂ icon
    · simp only [dedupGo, if_neg hc]
      exact (ih seen).cons icon

theorem dedupGo_find? : ∀ (l : List Icon) (seen : List String) (x : String),
    x ≠ "" → x ∉ seen →
    ((dedupGo seen l).1).find? (fun i => getName i == x) =
      l.find? (fun i => getName i == x) := by
  intro l
  induction l with
  | nil => intro seen x _ _; rfl
  | cons icon rest ih =>
    intro seen x hx hseen
    by_cases heq : getName icon = x
    · have hc : getName icon ≠ "" ∧ getName icon ∉ seen := by
        rw [heq]; exact ⟨hx, hseen⟩
      simp only [dedupGo, if_pos hc]
      rw [List.find?_cons_of_pos _ (by simp [heq]),
        List.find?_cons_of_pos _ (by simp [heq])]
    · by_cases hc : getName icon ≠ "" ∧ getName icon ∉ seen
      · simp only [dedupGo, if_pos hc]
        rw [List.find?_cons_of_neg _ (by simp [heq]),
          List.find?_cons_of_neg _ (by simp [heq])]
        refine ih (getName icon :: seen) x hx ?_
        simp only [List.mem_cons, not_or]
        exact ⟨fun h => heq h.symm, hseen⟩
      · simp only [dedupGo, if_neg hc]
        rw [List.find?_cons_of_neg _ (by simp [heq])]
        exact ih seen x hx hseen

theorem validationPass_foldl : ∀ (icons : List Icon) (acc : List Icon) (n : Nat),
    icons.foldl validationStep (acc, n) =
      (acc ++ icons.filter validate_icon_data,
       n + icons.countP fun i => !validate_icon_data i) := by
  intro icons
  induction icons with
  | nil => intro acc n; simp
  | cons icon rest ih =>
    intro acc n
    by_cases h : validate_icon_data icon
    · simp only [List.foldl_cons, validationStep, if_pos h, ih,
        List.filter_cons, List.countP_cons, h]
      simp
    · simp only [List.foldl_cons, validationStep, if_neg h, ih,
        List.filter_cons, List.countP_cons]
      simp only [Bool.not_eq_true] at h
      simp [h]
      omega

theorem validationPass_spec (icons : List Icon) :
    validationPass icons =
      (icons.filter validate_icon_data,
       icons.countP fun i => !validate_icon_data i) := by
  simpa [validationPass] using validationPass_foldl icons [] 0

theorem validate_icon_data_fields (icon : Icon)
    (h : validate_icon_data icon = true) :
    truthyS icon.name = true ∧ truthyS icon.description = true ∧
    truthyS icon.local_path = true ∧
    ∃ l, icon.embedding = some (PyVal.list l) ∧ l ≠ [] := by
  simp only [validate_icon_data] at h
  split at h
  · exact absurd h (by simp)
  · rename_i hreq
    simp only [Bool.or_eq_true, Bool.not_eq_true', not_or,
      Bool.not_eq_false] at hreq
    obtain ⟨⟨⟨hn, hd⟩, he⟩, hp⟩ := hreq
    refine ⟨hn, hd, hp, ?_⟩
    split at h
    · exact absurd h (by simp)
    · rename_i hemb
      simp only [Bool.or_eq_true, Bool.not_eq_true', not_or] at hemb
      cases hev : icon.embedding with
      | none => rw [hev] at he; simp [truthyV] at he
      | some v =>
        cases v with
        | atom s =>
          rw [hev] at hemb
          simp [Option.getD, PyVal.isList] at hemb
        | list l =>
          refine ⟨l, rfl, ?_⟩
          rw [hev] at he
          simp only [truthyV, PyVal.truthy, Bool.not_eq_false'] at he
          simpa [List.isEmpty_iff] using he

/-- C2: merging deduplicates by name keeping the first occurrence in
input-file order — when R1 and R2 both contain a record named `x`, the
merged (deduplicated) output's record named `x` is R1's first such record,
and the merged output is no longer than the inputs combined. -/
theorem c2_merge_first_occurrence_wins (R1 R2 : List Icon) (x : String)
    (hx : x ≠ "")
    (hR1 : (R1.find? (fun i => getName i == x)).isSome = true) :
    (deduplicate_icons (R1 ++ R2)).find? (fun i => getName i == x) =
      R1.find? (fun i => getName i == x) ∧
    (deduplicate_icons (R1 ++ R2)).length ≤ R1.length + R2.length := by
  constructor
  · rw [deduplicate_icons,
      dedupGo_find? (R1 ++ R2) [] x hx (by simp), List.find?_append]
    obtain ⟨r, hr⟩ := Option.isSome_iff_exists.1 hR1
    rw [hr]
    rfl
  · have h := dedupGo_length (R1 ++ R2) []
    rw [List.length_append] at h
    simp only [deduplicate_icons]
    omega

theorem c2_merge_first_occurrence_wins_witness :
    (deduplicate_icons ([iconXfirst] ++ [iconXsecond])).find?
        (fun i => getName i == "x") =
      [iconXfirst].find? (fun i => getName i == "x") ∧
    (deduplicate_icons ([iconXfirst] ++ [iconXsecond])).length ≤
      [iconXfirst].length + [iconXsecond].length :=
  c2_merge_first_occurrence_wins [iconXfirst] [iconXsecond] "x"
    (by decide) (by decide)

/-- C10: a record with a missing or empty `name` never appears in the
deduplicated output — even as the first or only occurrence — and is counted
in `duplicates_count` (which equals exactly the number of records dropped
by deduplication), not kept and not left for the validation stage. -/
theorem c10_nameless_record_discarded (l : List Icon) (icon : Icon)
    (hmem : icon ∈ l) (hname : getName icon = "") :
    icon ∉ deduplicate_icons l ∧
    duplicatesCount l = l.length - (deduplicate_icons l).length ∧
    1 ≤ duplicatesCount l := by
  have hnotin : icon ∉ deduplicate_icons l := fun h =>
    (dedupGo_mem_name l [] icon h).1 hname
  have hlen := dedupGo_length l []
  have hsub : (deduplicate_icons l).Sublist l := dedupGo_sublist l []
  have hne : deduplicate_icons l ≠ l := fun h => hnotin (by rw [h]; exact hmem)
  have hlt : (deduplicate_icons l).length < l.length := by
    rcases Nat.lt_or_ge (deduplicate_icons l).length l.length with h | h
    · exact h
    · exact absurd (hsub.eq_of_length (Nat.le_antisymm hsub.length_le h)) hne
  refine ⟨hnotin, ?_, ?_⟩
  · simp only [duplicatesCount, deduplicate_icons] at *
    omega
  · simp only [duplicatesCount, deduplicate_icons] at *
    omega

theorem c10_nameless_record_discarded_witness :
    iconNoName ∉ deduplicate_icons [iconNoName] ∧
    duplicatesCount [iconNoName] =
      [iconNoName].length - (deduplicate_icons [iconNoName]).length ∧
    1 ≤ duplicatesCount [iconNoName] :=
  c10_nameless_record_discarded [iconNoName] iconNoName
    (List.mem_singleton.2 rfl) (by decide)

/-- C5 (amended): every record in the merger's final output has truthy
`name`, `description` and `local_path` and an `embedding` that is a
non-empty LIST (element types are not checked by the code); the output is
sorted by name; and every deduplicated record failing the checks is
excluded from the output and counted in `invalid_count`. -/
theorem c5_output_validated_sorted (inputs : List (List Icon)) :
    (∀ icon ∈ combinedOutput inputs,
        truthyS icon.name = true ∧ truthyS icon.description = true ∧
        truthyS icon.local_path = true ∧
        ∃ l, icon.embedding = some (PyVal.list l) ∧ l ≠ []) ∧
    List.Sorted (fun a b => getName a ≤ getName b) (combinedOutput inputs) ∧
    invalidCount inputs =
      ((deduplicate_icons (allIcons inputs)).countP
        fun i => !validate_icon_data i) ∧
    (∀ icon ∈ deduplicate_icons (allIcons inputs),
      validate_icon_data icon = false → icon ∉ combinedOutput inputs) := by
  have hperm := List.mergeSort_perm
    ((validationPass (deduplicate_icons (allIcons inputs))).1)
    (fun a b => decide (getName a ≤ getName b))
  have hfilter := validationPass_spec (deduplicate_icons (allIcons inputs))
  refine ⟨?_, ?_, ?_, ?_⟩
  · intro icon hmem
    have h1 : icon ∈ (validationPass (deduplicate_icons (allIcons inputs))).1 :=
      hperm.mem_iff.1 hmem
    rw [hfilter] at h1
    exact validate_icon_data_fields icon (List.mem_filter.1 h1).2
  · have htrans : ∀ a b c : Icon, decide (getName a ≤ getName b) = true →
        decide (getName b ≤ getName c) = true →
        decide (getName a ≤ getName c) = true := by
      intro a b c h1 h2
      simp only [decide_eq_true_eq] at *
      exact le_trans h1 h2
    have htot : ∀ a b : Icon,
        (decide (getName a ≤ getName b) || decide (getName b ≤ getName a))
          = true := by
      intro a b
      simpa using le_total (getName a) (getName b)
    have hp := List.sorted_mergeSort htrans htot
      ((validationPass (deduplicate_icons (allIcons inputs))).1)
    exact hp.imp fun h => by simpa using h
  · rw [invalidCount, hfilter]
  · intro icon _ hbad hout
    have h1 : icon ∈ (validationPass (deduplicate_icons (allIcons inputs))).1 :=
      hperm.mem_iff.1 hout
    rw [hfilter] at h1
    rw [(List.mem_filter.1 h1).2] at hbad
    exact Bool.true_eq_false.mp hbad

theorem c5_output_validated_sorted_witness :
    List.Sorted (fun a b => getName a ≤ getName b)
      (combinedOutput [[iconBname, iconAname]]) :=
  (c5_output_validated_sorted [[iconBname, iconAname]]).2.1

/-- C5 counterexample: a record whose `embedding` is a non-empty list
containing a non-numeric element passes `validate_icon_data` and reaches
the merger's final output, so the output is not guaranteed to hold numeric
sequences as the claim states. -/
theorem c5_nonnumeric_embedding_kept :
    badEmbeddingIcon ∈ combinedOutput [[badEmbeddingIcon]] ∧
    specNumericEmbedding badEmbeddingIcon = false := by
  constructor
  · have h : (validationPass
        (deduplicate_icons (allIcons [[badEmbeddingIcon]]))).1 =
        [badEmbeddingIcon] := by decide
    rw [combinedOutput, h]
    exact ((List.mergeSort_perm [badEmbeddingIcon] _).mem_iff).2
      (List.mem_singleton.2 rfl)
  · rfl

end CombineRuns

namespace BuildDb

theorem embedValid_iff (dims : Nat) (hdims : 0 < dims) (icon : Icon) :
    embedValid dims icon = true ↔
      ∃ l, icon.embedding = some l ∧ l.length = dims := by
  cases h : icon.embedding with
  | none => simp [embedValid, h]
  | some l =>
    simp only [embedValid, h, Bool.and_eq_true, beq_iff_eq,
      Bool.not_eq_true']
    constructor
    · rintro ⟨-, hlen⟩
      exact ⟨l, rfl, hlen⟩
    · rintro ⟨l', hl', hlen⟩
      obtain rfl : l = l' := by injection hl'
      have hne : l ≠ [] := by
        intro hnil
        rw [hnil] at hlen
        simp at hlen
        omega
      exact ⟨by simpa [List.isEmpty_iff] using hne, hlen⟩

theorem vecRowFor_isSome (dims iconId : Nat) (icon : Icon) :
    (vecRowFor dims iconId icon).isSome = embedValid dims icon := by
  cases h : icon.embedding with
  | none => simp [vecRowFor, embedValid, h]
  | some l =>
    simp only [vecRowFor, embedValid, h]
    split <;> simp_all

/-- C1: when a record's primary insert succeeds, a vector-index row is
produced iff its embedding is present with length equal to the configured
dimensionality; the primary-table row and the FTS row are produced
unconditionally; and for a missing or wrong-length embedding nothing is
stored: no vector row, and the primary row's embedding column is NULL.
(`0 < dims` holds in every run that reaches insertion: the vec0 schema of
`create_database` rejects a zero-width `FLOAT[0]` column.) -/
theorem c1_vector_index_gate (dims : Nat) (db : DB) (icon : Icon)
    (hdims : 0 < dims)
    (hfresh : ((db.icons.map IconRow.name).contains icon.name) = false) :
    ∃ db', insertIcon dims db icon = Except.ok db' ∧
      ((vecRowFor dims db.nextId icon).isSome = true ↔
        ∃ l, icon.embedding = some l ∧ l.length = dims) ∧
      db'.icons = db.icons ++ [primaryRowFor dims db.nextId icon] ∧
      db'.ftsRows = db.ftsRows ++ [ftsRowFor db.nextId icon] ∧
      db'.vecRows = db.vecRows ++ (vecRowFor dims db.nextId icon).toList ∧
      ((¬∃ l, icon.embedding = some l ∧ l.length = dims) →
        (primaryRowFor dims db.nextId icon).embedding = none ∧
        vecRowFor dims db.nextId icon = none) := by
  refine ⟨{ icons := db.icons ++ [primaryRowFor dims db.nextId icon]
            vecRows := db.vecRows ++ (vecRowFor dims db.nextId icon).toList
            ftsRows := db.ftsRows ++ [ftsRowFor db.nextId icon]
            nextId := db.nextId + 1 }, ?_, ?_, rfl, rfl, rfl, ?_⟩
  · rw [insertIcon, if_neg (by rw [hfresh]; exact Bool.false_ne_true)]
  · rw [vecRowFor_isSome]
    exact embedValid_iff dims hdims icon
  · intro hno
    have hval : embedValid dims icon = false := by
      rcases h : embedValid dims icon with - | -
      · rfl
      · exact absurd ((embedValid_iff dims hdims icon).1 h) hno
    constructor
    · simp [primaryRowFor, hval]
    · have := vecRowFor_isSome dims db.nextId icon
      rw [hval] at this
      exact Option.not_isSome_iff_eq_none.1 (by rw [this]; exact Bool.false_ne_true)

theorem c1_vector_index_gate_witness :
    0 < 2 ∧
    ((dbEmpty.icons.map IconRow.name).contains iconShortEmb.name) = false ∧
    ∃ db', insertIcon 2 dbEmpty iconShortEmb = Except.ok db' :=
  ⟨by decide, by decide,
    (c1_vector_index_gate 2 dbEmpty iconShortEmb (by decide)
      (by decide)).elim fun db' h => ⟨db', h.1⟩⟩

theorem insertLoop_shift (dims : Nat) :
    ∀ (icons : List Icon) (db : DB) (i f : Nat),
      icons.foldl (insertStep dims) (db, i, f) =
        ((insert_icons dims db icons).1,
         i + (insert_icons dims db icons).2.1,
         f + (insert_icons dims db icons).2.2) := by
  intro icons
  induction icons with
  | nil => intro db i f; simp [insert_icons]
  | cons icon rest ih =>
    intro db i f
    simp only [insert_icons, List.foldl_cons]
    cases h : insertIcon dims db icon with
    | ok db' =>
      simp only [insertStep, h]
      rw [ih db' (i + 1) f, ih db' 1 0]
      simp only [Prod.mk.injEq, eq_self_iff_true, true_and]
      omega
    | error e =>
      simp only [insertStep, h]
      rw [ih db i (f + 1), ih db 0 1]
      simp only [Prod.mk.injEq, eq_self_iff_true, true_and]
      omega

theorem insert_icons_total (dims : Nat) :
    ∀ (icons : List Icon) (db : DB),
      (insert_icons dims db icons).2.1 + (insert_icons dims db icons).2.2 =
        icons.length := by
  intro icons
  induction icons with
  | nil => intro db; rfl
  | cons icon rest ih =>
    intro db
    simp only [insert_icons, List.foldl_cons]
    cases h : insertIcon dims db icon with
    | ok db' =>
      simp only [insertStep, h]
      rw [insertLoop_shift dims rest db' 1 0]
      have := ih db'
      simp only [List.length_cons]
      omega
    | error e =>
      simp only [insertStep, h]
      rw [insertLoop_shift dims rest db 0 1]
      have := ih db
      simp only [List.length_cons]
      omega

/-- C8: a per-record insert failure (here: the UNIQUE constraint on a
duplicate name) is caught and counted as failed, and the remaining records
are processed exactly as they would have been without the failing record;
the loop always accounts for every record (inserted + failed = total), so
no per-record failure aborts the assembly. -/
theorem c8_insert_failure_does_not_abort (dims : Nat) (db : DB)
    (pre post : List Icon) (bad : Icon)
    (hbad : ((insert_icons dims db pre).1.icons.map IconRow.name).contains
      bad.name = true) :
    insert_icons dims db (pre ++ bad :: post) =
      ((insert_icons dims (insert_icons dims db pre).1 post).1,
       (insert_icons dims db pre).2.1 +
         (insert_icons dims (insert_icons dims db pre).1 post).2.1,
       (insert_icons dims db pre).2.2 +
         (insert_icons dims (insert_icons dims db pre).1 post).2.2 + 1) ∧
    (insert_icons dims db (pre ++ bad :: post)).2.1 +
      (insert_icons dims db (pre ++ bad :: post)).2.2 =
      pre.length + 1 + post.length := by
  have hstep : insertStep dims (insert_icons dims db pre) bad =
      ((insert_icons dims db pre).1, (insert_icons dims db pre).2.1,
       (insert_icons dims db pre).2.2 + 1) := by
    rw [insertStep, insertIcon, if_pos hbad]
  have hmain : insert_icons dims db (pre ++ bad :: post) =
      ((insert_icons dims (insert_icons dims db pre).1 post).1,
       (insert_icons dims db pre).2.1 +
         (insert_icons dims (insert_icons dims db pre).1 post).2.1,
       (insert_icons dims db pre).2.2 +
         (insert_icons dims (insert_icons dims db pre).1 post).2.2 + 1) := by
    rw [insert_icons, List.foldl_append, List.foldl_cons]
    show List.foldl (insertStep dims)
      (insertStep dims (insert_icons dims db pre) bad) post = _
    rw [hstep, insertLoop_shift dims post (insert_icons dims db pre).1
      (insert_icons dims db pre).2.1 ((insert_icons dims db pre).2.2 + 1)]
    simp only [Prod.mk.injEq, eq_self_iff_true, true_and]
    omega
  refine ⟨hmain, ?_⟩
  rw [hmain]
  have h1 := insert_icons_total dims pre db
  have h2 := insert_icons_total dims post (insert_icons dims db pre).1
  simp only [List.length_append, List.length_cons]
  omega

theorem c8_insert_failure_does_not_abort_witness :
    (insert_icons 2 dbEmpty ([iconFirstA] ++ iconDupA :: [iconFreshB])).2.1 +
      (insert_icons 2 dbEmpty ([iconFirstA] ++ iconDupA :: [iconFreshB])).2.2 =
      [iconFirstA].length + 1 + [iconFreshB].length :=
  (c8_insert_failure_does_not_abort 2 dbEmpty [iconFirstA] [iconFreshB]
    iconDupA (by decide)).2

end BuildDb

namespace ProcessIcons

/-- C3 counterexample: the checkpoint write embeds the wall-clock reading
`time.time()` into the serialized document, so two writes of the same
accumulated run data at different instants are not byte-identical. -/
theorem c3_checkpoint_not_time_invariant :
    save_processed_data Unit [] 0 ≠ save_processed_data Unit [] 1 := by
  decide

/-- C3 (amended): two checkpoint writes with the same accumulated RunResult
produce documents identical in every field except `timestamp`, which records
the wall-clock time of the write; the writes are byte-identical exactly when
the two clock readings coincide (there is no other nondeterminism — key
order and all remaining fields are functions of the run data alone). -/
theorem c3_checkpoint_deterministic_modulo_timestamp (α : Type)
    (processed : List α) (t₁ t₂ : Nat) :
    (save_processed_data α processed t₁).withoutTimestamp =
      (save_processed_data α processed t₂).withoutTimestamp ∧
    (save_processed_data α processed t₁ = save_processed_data α processed t₂
      ↔ t₁ = t₂) := by
  refine ⟨rfl, ⟨fun h => ?_, fun h => by rw [h]⟩⟩
  have := congrArg SavedDoc.timestamp h
  simpa [save_processed_data] using this

theorem c3_checkpoint_deterministic_modulo_timestamp_witness :
    (save_processed_data Nat [7] 3).withoutTimestamp =
      (save_processed_data Nat [7] 5).withoutTimestamp :=
  (c3_checkpoint_deterministic_modulo_timestamp Nat [7] 3 5).1

theorem writeSlots_length {β : Type} (g : Nat → Option β) :
    ∀ (completion : List Nat) (slots : List (Option β)),
      (writeSlots g completion slots).length = slots.length := by
  intro completion
  induction completion with
  | nil => intro slots; rfl
  | cons i rest ih =>
    intro slots
    rw [writeSlots, ih, List.length_set]

theorem writeSlots_getElem?_of_not_mem {β : Type} (g : Nat → Option β) :
    ∀ (completion : List Nat) (slots : List (Option β)) (i : Nat),
      i ∉ completion → (writeSlots g completion slots)[i]? = slots[i]? := by
  intro completion
  induction completion with
  | nil => intro slots i _; rfl
  | cons j rest ih =>
    intro slots i hi
    simp only [List.mem_cons, not_or] at hi
    rw [writeSlots, ih _ _ hi.2, List.getElem?_set_ne (Ne.symm hi.1)]

theorem writeSlots_getElem?_of_mem {β : Type} (g : Nat → Option β) :
    ∀ (completion : List Nat) (slots : List (Option β)) (i : Nat),
      i ∈ completion → i < slots.length →
      (writeSlots g completion slots)[i]? = some (g i) := by
  intro completion
  induction completion with
  | nil => intro slots i hi _; simp at hi
  | cons j rest ih =>
    intro slots i hi hlen
    by_cases hmem : i ∈ rest
    · rw [writeSlots]
      exact ih _ i hmem (by rw [List.length_set]; exact hlen)
    · have hij : i = j := by
        rcases List.mem_cons.1 hi with h | h
        · exact h
        · exact absurd h hmem
      subst hij
      rw [writeSlots, writeSlots_getElem?_of_not_mem g rest _ i hmem,
        List.getElem?_set_eq hlen]

theorem gatherResults_eq_map {α β : Type} (f : α → Option β) (items : List α)
    (completion : List Nat)
    (hcover : ∀ i, i < items.length → i ∈ completion) :
    gatherResults f items completion = items.map f := by
  apply List.ext_getElem?
  intro n
  by_cases hn : n < items.length
  · rw [gatherResults, writeSlots_getElem?_of_mem _ _ _ n (hcover n hn)
      (by rw [List.length_map]; exact hn)]
    simp [List.get?_eq_getElem?, List.getElem?_eq_getElem hn,
      List.getElem?_map]
  · have h1 : (gatherResults f items completion).length = items.length := by
      rw [gatherResults, writeSlots_length, List.length_map]
    rw [List.getElem?_eq_none (by omega),
      List.getElem?_eq_none (by rw [List.length_map]; omega)]

/-- C4: for every batch and every completion order covering the batch's
indices, the successful results collected by the orchestrator equal the
per-item outcomes filtered in input order — the output is independent of
the completion order and preserves the input order. -/
theorem c4_output_order_matches_input_order {α β : Type} (f : α → Option β)
    (items : List α) (completion : List Nat)
    (hcover : ∀ i, i < items.length → i ∈ completion)
    (hvalid : ∀ i ∈ completion, i < items.length) :
    batchOutput f items completion = items.filterMap f := by
  rw [batchOutput, gatherResults_eq_map f items completion hcover,
    List.filterMap_map]
  rfl

theorem c4_output_order_matches_input_order_witness :
    batchOutput (fun n : Nat => some (n + 1)) [10, 20, 30] [2, 0, 1] =
      [10, 20, 30].filterMap (fun n => some (n + 1)) :=
  c4_output_order_matches_input_order (fun n => some (n + 1)) [10, 20, 30]
    [2, 0, 1] (by decide) (by decide)

end ProcessIcons

namespace EmbedServer

theorem awaitById_eq_find (k : Nat) (rs : List Response) :
    awaitById k rs =
      (rs.find? (fun r => r.id == k)).map
        (fun r => if r.isError then none else r.embedding) := by
  induction rs with
  | nil => rfl
  | cons r rest ih =>
    by_cases h : r.id = k
    · rw [awaitById, if_pos h, List.find?_cons_of_pos _ (by simp [h])]
      rfl
    · rw [awaitById, if_neg h, List.find?_cons_of_neg _ (by simp [h]), ih]

/-- C6: an embed call waiting on identifier `k` returns exactly the payload
of the first response tagged `k` — null when that response carries the
error flag — and never another identifier's payload: responses tagged with
other identifiers, in any interleaving, do not change the returned value. -/
theorem c6_response_correlation (k : Nat) (rs pre : List Response)
    (hpre : ∀ r ∈ pre, r.id ≠ k) :
    awaitById k rs =
      (rs.find? (fun r => r.id == k)).map
        (fun r => if r.isError then none else r.embedding) ∧
    awaitById k (pre ++ rs) = awaitById k rs := by
  refine ⟨awaitById_eq_find k rs, ?_⟩
  induction pre with
  | nil => rfl
  | cons p rest ih =>
    rw [List.cons_append, awaitById,
      if_neg (hpre p (List.mem_cons_self p rest))]
    exact ih fun r hr => hpre r (List.mem_cons_of_mem p hr)

theorem c6_response_correlation_witness :
    awaitById 1 [respOther, respMatch] =
      ([respOther, respMatch].find? (fun r => r.id == 1)).map
        (fun r => if r.isError then none else r.embedding) ∧
    awaitById 1 ([respLate] ++ [respOther, respMatch]) =
      awaitById 1 [respOther, respMatch] :=
  c6_response_correlation 1 [respOther, respMatch] [respLate] (by decide)

/-- C7 counterexample: with no response tagged with the awaited identifier,
the wait in embed_single_process.py never returns at all (its queue read has
no timeout; the outer `none` of `awaitById` is the blocked outcome, not a
returned value), while the wait in embed_db_missing.py returns null after
its 30-second deadline.  So "every wait for an embedding-subprocess response
terminates within a bounded time" is false for embed_single_process.py. -/
theorem c7_unbounded_wait_in_single_process :
    awaitById 1 [respOther] = none ∧
    awaitByIdTimeout 1 [respOther] = none := by
  decide

/-- C7 (amended): the wait in embed_db_missing.py is bounded by a 30-second
deadline and returns null when no matching response arrives, so that pass
proceeds past a stuck subprocess; the wait in embed_single_process.py has no
timeout and never returns when no response tagged with its request
identifier arrives. -/
theorem c7_timeout_only_in_db_missing (k : Nat) (rs : List Response)
    (h : ∀ r ∈ rs, r.id ≠ k) :
    awaitByIdTimeout k rs = none ∧ awaitById k rs = none := by
  induction rs with
  | nil => exact ⟨rfl, rfl⟩
  | cons r rest ih =>
    have hr : r.id ≠ k := h r (List.mem_cons_self r rest)
    have ihr := ih fun s hs => h s (List.mem_cons_of_mem r hs)
    rw [awaitByIdTimeout, if_neg hr, awaitById, if_neg hr]
    exact ihr

theorem c7_timeout_only_in_db_missing_witness :
    awaitByIdTimeout 1 [respOther, respErrLate] = none ∧
    awaitById 1 [respOther, respErrLate] = none :=
  c7_timeout_only_in_db_missing 1 [respOther, respErrLate] (by decide)

end EmbedServer

namespace EmbedDbMissing

theorem framePreserved_refl (r : Row) : framePreserved r r :=
  ⟨rfl, rfl, rfl, rfl, fun _ => rfl⟩

theorem forall₂_ids : ∀ (db acc : List Row),
    List.Forall₂ framePreserved db acc →
    ∀ b ∈ acc, ∃ a ∈ db, b.id = a.id := by
  intro db acc h
  induction h with
  | nil => intro b hb; exact absurd hb (List.not_mem_nil b)
  | @cons a b l₁ l₂ hab hrest ih =>
    intro c hc
    rcases List.mem_cons.1 hc with rfl | hc
    · exact ⟨a, List.mem_cons_self a l₁, hab.1⟩
    · obtain ⟨a', ha', hid⟩ := ih c hc
      exact ⟨a', List.mem_cons_of_mem a ha', hid⟩

theorem updateById_absent : ∀ (acc : List Row) (t : Nat) (v : String),
    (∀ b ∈ acc, b.id ≠ t) → updateById acc t v = acc := by
  intro acc t v h
  induction acc with
  | nil => rfl
  | cons b rest ih =>
    have htail : updateById rest t v = rest :=
      ih fun c hc => h c (List.mem_cons_of_mem b hc)
    simp only [updateById, List.map_cons,
      if_neg (h b (List.mem_cons_self b rest))]
    simp only [updateById] at htail
    rw [htail]

theorem forall₂_updateById (row : Row) (v : String) :
    ∀ (db acc : List Row), List.Forall₂ framePreserved db acc →
      (db.map Row.id).Nodup → row ∈ db → missingEmbedding row = true →
      List.Forall₂ framePreserved db (updateById acc row.id v) := by
  intro db acc h
  induction h with
  | nil => intro _ hmem _; exact absurd hmem (List.not_mem_nil row)
  | @cons a b l₁ l₂ hab hrest ih =>
    intro hnod hmem hmiss
    have hnod' : (l₁.map Row.id).Nodup := by
      rw [List.map_cons] at hnod
      exact (List.nodup_cons.1 hnod).2
    have hanotin : a.id ∉ l₁.map Row.id := by
      rw [List.map_cons] at hnod
      exact (List.nodup_cons.1 hnod).1
    simp only [updateById, List.map_cons]
    rcases List.mem_cons.1 hmem with rfl | hmem
    · rw [if_pos hab.1]
      have htail : updateById l₂ row.id v = l₂ := by
        refine updateById_absent l₂ row.id v fun c hc hcontra => ?_
        obtain ⟨a', ha', hid⟩ := forall₂_ids l₁ l₂ hrest c hc
        rw [hcontra] at hid
        exact hanotin (hid ▸ List.mem_map_of_mem Row.id ha')
      simp only [updateById] at htail
      rw [htail]
      refine List.Forall₂.cons ?_ hrest
      refine ⟨hab.1, hab.2.1, hab.2.2.1, hab.2.2.2.1, fun hf => ?_⟩
      rw [hf] at hmiss
      exact Bool.noConfusion hmiss
    · have hbne : ¬b.id = row.id := by
        rw [hab.1]
        intro hcontra
        exact hanotin (hcontra ▸ List.mem_map_of_mem Row.id hmem)
      rw [if_neg hbne]
      have htail := ih hnod' hmem hmiss
      simp only [updateById] at htail
      exact List.Forall₂.cons hab htail

theorem backfill_go (embedFn : String → Option String) (db : List Row)
    (hids : (db.map Row.id).Nodup) :
    ∀ (sel : List Row), (∀ r ∈ sel, r ∈ db ∧ missingEmbedding r = true) →
    ∀ (acc : List Row), List.Forall₂ framePreserved db acc →
      List.Forall₂ framePreserved db
        (sel.foldl (backfillStep embedFn) acc) := by
  intro sel
  induction sel with
  | nil => intro _ acc h; exact h
  | cons row rest ih =>
    intro hsel acc h
    rw [List.foldl_cons]
    refine ih (fun r hr => hsel r (List.mem_cons_of_mem row hr)) _ ?_
    cases hE : embedFn row.searchable_text with
    | none => simpa [backfillStep, hE] using h
    | some e =>
      simp only [backfillStep, hE]
      exact forall₂_updateById row e db acc h hids
        (hsel row (List.mem_cons_self row rest)).1
        (hsel row (List.mem_cons_self row rest)).2

/-- C9: the backfill pass leaves every column other than `embedding`
unchanged in every row, and leaves every row whose embedding was not NULL
or empty at selection time entirely unchanged; rows keep their identity and
position (the output is the input list related row-by-row by
`framePreserved`). -/
theorem c9_backfill_frame (embedFn : String → Option String) (db : List Row)
    (hids : (db.map Row.id).Nodup) :
    List.Forall₂ framePreserved db (backfill embedFn db) := by
  rw [backfill]
  refine backfill_go embedFn db hids (selectMissing db) ?_ db ?_
  · intro r hr
    have hm := List.mem_filter.1 hr
    exact ⟨hm.1, hm.2⟩
  · exact List.forall₂_same.2 fun r _ => framePreserved_refl r

theorem c9_backfill_frame_witness :
    List.Forall₂ framePreserved [rowKept, rowMissing]
      (backfill embedConst [rowKept, rowMissing]) :=
  c9_backfill_frame embedConst [rowKept, rowMissing] (by decide)

end EmbedDbMissing
